import Mathlib

/-!
Verification of the `algoart` landscape-art pipeline
(`src/algoart/parameters.py`): a shallow embedding of its data model and
operations, with theorems checking the specified properties.

Randomness in the source comes from Python's process-wide `random` module;
here every random draw is an explicit input (a stream of choices), with a
validity predicate recording exactly the support of the corresponding
`random.randint` / `random.random` call.
-/

namespace Algoart

/-- A parameter value stored in a `ParameterSet` (the source stores numbers
and strings in a dict). -/
inductive PVal where
  | natv (n : ℕ)
  | ratv (q : ℚ)
  | strv (s : String)
deriving DecidableEq

/-- `ParameterSet` (source class `ParameterSet`): a mapping from option name
to optional value; `get(key, default)` falls back to the default. -/
def ParameterSet := String → Option PVal

/-- `ParameterSet.get(key, default)` from the source: stored value or default. -/
def ParameterSet.get (ps : ParameterSet) (key : String) (d : PVal) : PVal :=
  (ps key).getD d

/-- Convenience: read a natural-number parameter with a default, as the
consumers in the source do (`self.params.get("size", 512)` etc.). -/
def ParameterSet.getNat (ps : ParameterSet) (key : String) (d : ℕ) : ℕ :=
  match ps key with
  | some (.natv n) => n
  | _ => d

/-- Convenience: read a rational-number parameter with a default. -/
def ParameterSet.getRat (ps : ParameterSet) (key : String) (d : ℚ) : ℚ :=
  match ps key with
  | some (.ratv q) => q
  | some (.natv n) => (n : ℚ)
  | _ => d

/-- An RGB color triple. Python's color channels here are unbounded ints in
principle; every producer in the source yields values in `[0, 255]`. -/
structure RGB where
  r : ℕ
  g : ℕ
  b : ℕ
deriving DecidableEq

/-- Truncation of a rational toward zero, the semantics of Python's `int()`
and of C float-to-integer conversion used by numpy casts. -/
def truncQ (q : ℚ) : ℤ :=
  if q < 0 then ⌈q⌉ else ⌊q⌋

/-- numpy `astype("uint8")` / assignment into a `uint8` array: C-style cast
of a float to `uint8`, i.e. truncate toward zero then wrap modulo 256. -/
def castUint8 (q : ℚ) : ℕ :=
  ((truncQ q) % 256).toNat

/-- Minimum of a list of rationals (numpy `heightmap.min()`); junk value 0
on the empty list, which the source never hits for `size >= 1`. -/
def lmin : List ℚ → ℚ
  | [] => 0
  | [a] => a
  | a :: b :: t => min a (lmin (b :: t))

/-- Maximum of a list of rationals (numpy `heightmap.max()`). -/
def lmax : List ℚ → ℚ
  | [] => 0
  | [a] => a
  | a :: b :: t => max a (lmax (b :: t))

/-- The raw (un-normalized) heightmap sampled by
`LandscapeGenerator.generate`: for every cell `(i, j)` of a `size × size`
grid, the value of the coherent-noise function at `(i/scale, j/scale)`.
`noiseF` abstracts the external library call `noise.pnoise2` (with its
`octaves`/`persistence`/`lacunarity`/`repeatx`/`repeaty`/`base` arguments
fixed); `pnoise2` is third-party C code, not part of this repository. -/
def rawHeightmap (noiseF : ℚ → ℚ → ℚ) (ps : ParameterSet) : List (List ℚ) :=
  let size := ps.getNat "size" 512
  let scale := ps.getRat "scale" 100
  (List.range size).map fun (i : ℕ) =>
    (List.range size).map fun (j : ℕ) => noiseF ((i : ℚ) / scale) ((j : ℚ) / scale)

/-- `LandscapeGenerator.generate`: sample the raw heightmap, then
min-max normalize: `(heightmap - heightmap.min()) / (heightmap.max() - heightmap.min())`. -/
def LandscapeGenerator.generate (noiseF : ℚ → ℚ → ℚ) (ps : ParameterSet) :
    List (List ℚ) :=
  let heightmap := rawHeightmap noiseF ps
  let lo := lmin heightmap.flatten
  let hi := lmax heightmap.flatten
  heightmap.map (List.map (fun v => (v - lo) / (hi - lo)))

/-- `ColorPalette` state after construction: the palette type string and the
stored custom color list. -/
structure ColorPalette where
  palette_type : String
  custom_colors : List RGB
deriving DecidableEq

/-- `ColorPalette.__init__`: `self.custom_colors = custom_colors or []`.
Python `or` replaces a falsy argument (`None`, or the empty list) by `[]`. -/
def ColorPalette.init (palette_type : String) (custom_colors : Option (List RGB)) :
    ColorPalette :=
  ⟨palette_type,
    match custom_colors with
    | none => []
    | some cs => if cs.isEmpty then [] else cs⟩

/-- Support of `ColorPalette.random_color`: a tuple of three draws of
`random.randint(50, 255)` (both endpoints inclusive). -/
def validRandomColor (c : RGB) : Prop :=
  50 ≤ c.r ∧ c.r ≤ 255 ∧ 50 ≤ c.g ∧ c.g ≤ 255 ∧ 50 ≤ c.b ∧ c.b ≤ 255

/-- `np.linspace(0, 1, 10)`: ten evenly spaced points from 0 to 1, both
endpoints included. -/
def linspace10 : List ℚ :=
  (List.range 10).map fun (k : ℕ) => (k : ℚ) / 9

/-- One channel of a gradient color:
`int(start_color[i] + (end_color[i] - start_color[i]) * t)` — Python `int()`
truncates toward zero. -/
def interpChannel (s e : ℕ) (t : ℚ) : ℕ :=
  (truncQ ((s : ℚ) + ((e : ℚ) - (s : ℚ)) * t)).toNat

/-- `ColorPalette.gradient_colors`, given the two endpoint colors sampled by
its two `random_color()` calls: interpolate each channel at the ten
`linspace10` points. -/
def ColorPalette.gradient_colors (start_color end_color : RGB) : List RGB :=
  linspace10.map fun t =>
    ⟨interpChannel start_color.r end_color.r t,
     interpChannel start_color.g end_color.g t,
     interpChannel start_color.b end_color.b t⟩

/-- `ColorPalette.generate(num_colors)`. `randColor` is the stream of
successive `random_color()` results (the gradient branch consumes two: the
start and end endpoint colors). Fallible: unknown palette types raise
`ValueError("Unknown palette type.")`. -/
def ColorPalette.generate (p : ColorPalette) (randColor : ℕ → RGB)
    (num_colors : ℕ) : Except String (List RGB) :=
  if p.palette_type = "random" then
    .ok ((List.range num_colors).map randColor)
  else if p.palette_type = "gradient" then
    .ok (ColorPalette.gradient_colors (randColor 0) (randColor 1))
  else if p.palette_type = "custom" then
    .ok p.custom_colors
  else
    .error "Unknown palette type."

/-- An RGB raster image: a list of rows of pixels, mutated in place by the
overlay routines. -/
abbrev Image := List (List RGB)

/-- Pixel lookup at row `x`, column `y` (`none` when out of bounds). -/
def getPixel (img : Image) (x y : ℕ) : Option RGB :=
  (img[x]?).bind fun row => row[y]?

/-- The list of row lengths of an image (its shape). -/
def shape (img : Image) : List ℕ := img.map List.length

/-- Write the pixel at row `x`, column `y` (identity out of bounds; the
source only ever writes in-bounds indices). -/
def setPixel (img : Image) (x y : ℕ) (c : RGB) : Image :=
  match img[x]? with
  | none => img
  | some row => img.set x (row.set y c)

/-- Step 1 of `OverlayArtist.apply_overlay`:
`Image.fromarray((heightmap * 255).astype("uint8")).convert("RGB")` — each
normalized height value becomes the C-style uint8 cast of `h * 255`,
duplicated across the three RGB channels by the `"L"` → `"RGB"` conversion. -/
def grayImage (hm : List (List ℚ)) : Image :=
  hm.map fun row => row.map fun h =>
    ⟨castUint8 (h * 255), castUint8 (h * 255), castUint8 (h * 255)⟩

/-- `random.choice(seq)`: a uniformly drawn element of a non-empty
sequence — `pick` is the drawn index (support `pick < seq.length`, made
total here by reducing modulo the length); on an empty sequence it raises
`IndexError("Cannot choose from an empty sequence")`. -/
def randChoice {α : Type} (l : List α) (pick : ℕ) : Except String α :=
  match l with
  | [] => .error "Cannot choose from an empty sequence"
  | a :: rest => .ok ((a :: rest).getD (pick % (rest.length + 1)) a)

/-- A circle as actually drawn by one successful iteration of the
`particle_overlay` loop: center, resolved fill color, radius. -/
structure ParticleChoice where
  x : ℕ
  y : ℕ
  color : RGB
  radius : ℕ
deriving DecidableEq

/-- The raw random draws of one iteration of the `particle_overlay` loop:
the center `(x, y) = (randint(0, image.size[0]), randint(0, image.size[1]))`,
the `random_color()` results consumed by this iteration's
`self.palette.generate()` call, the index drawn by `random.choice`, and the
radius `randint(1, 5)`. -/
structure ParticleDraw where
  x : ℕ
  y : ℕ
  palRand : ℕ → RGB
  pick : ℕ
  radius : ℕ

/-- Support of one particle's `randint` draws for a `size × size` image:
Python's `random.randint(a, b)` includes BOTH endpoints, so each center
coordinate ranges over `0 .. size` inclusive. -/
def ParticleDraw.valid (size : ℕ) (d : ParticleDraw) : Prop :=
  d.x ≤ size ∧ d.y ≤ size ∧ 1 ≤ d.radius ∧ d.radius ≤ 5

/-- `color = random.choice(self.palette.generate())` for one particle:
`generate` (called with its default `num_colors = 10`) can raise
`ValueError("Unknown palette type.")`, and `random.choice` can raise
`IndexError` on an empty (custom) palette; either aborts the overlay. -/
def resolveParticle (palette : ColorPalette) (d : ParticleDraw) :
    Except String ParticleChoice :=
  match palette.generate d.palRand 10 with
  | .error e => .error e
  | .ok colors =>
    match randChoice colors d.pick with
    | .error e => .error e
    | .ok color => .ok ⟨d.x, d.y, color, d.radius⟩

/-- Does the filled circle drawn by
`draw.ellipse((x - radius, y - radius, x + radius, y + radius))` cover the
pixel at row `i`, column `j`? Modelled as the Euclidean disc of radius `r`
around the center `(x, y)` (PIL coordinates are column-then-row). -/
def coveredB (x y r i j : ℕ) : Bool :=
  decide (((j : ℤ) - (x : ℤ)) ^ 2 + ((i : ℤ) - (y : ℤ)) ^ 2 ≤ ((r : ℤ)) ^ 2)

/-- Map a function over a row together with the column index, starting the
index count at `j`. -/
def mapRowFrom (f : ℕ → RGB → RGB) : ℕ → List RGB → List RGB
  | _, [] => []
  | j, p :: rest => f j p :: mapRowFrom f (j + 1) rest

/-- Map a function over a grid together with the (row, column) index,
starting the row count at `i`. -/
def mapGridFrom (f : ℕ → ℕ → RGB → RGB) : ℕ → Image → Image
  | _, [] => []
  | i, row :: rest => mapRowFrom (f i) 0 row :: mapGridFrom f (i + 1) rest

/-- Draw one filled circle: every pixel the disc covers takes the fill
color, every other pixel is untouched. -/
def drawCircleImg (img : Image) (c : ParticleChoice) : Image :=
  mapGridFrom (fun i j p => if coveredB c.x c.y c.radius i j then c.color else p) 0 img

/-- The successive random draws consumed by
`for _ in range(num_particles)`. -/
def particleChoices (rand : ℕ → ParticleDraw) (n : ℕ) : List ParticleDraw :=
  (List.range n).map rand

/-- The `particle_overlay` loop body over a list of per-iteration draws:
resolve each particle's color through the palette (aborting with the raised
error if `generate` or `random.choice` fails) and draw its circle. -/
def drawParticles (palette : ColorPalette) :
    Image → List ParticleDraw → Except String Image
  | img, [] => .ok img
  | img, d :: rest =>
    match resolveParticle palette d with
    | .error e => .error e
    | .ok c => drawParticles palette (drawCircleImg img c) rest

/-- `OverlayArtist.particle_overlay`: draw `num_particles` (default 500)
filled circles on the image, each colored by a fresh
`random.choice(self.palette.generate())` call that may raise. -/
def particle_overlay (ps : ParameterSet) (palette : ColorPalette) (img : Image)
    (rand : ℕ → ParticleDraw) : Except String Image :=
  drawParticles palette img (particleChoices rand (ps.getNat "num_particles" 500))

/-- The random draws consumed when the fractal overlay recolors one pixel:
the `random_color()` results of that pixel's `self.palette.generate()` call
and the index drawn by `random.choice`. -/
structure PixelDraw where
  palRand : ℕ → RGB
  pick : ℕ

/-- `color = random.choice(self.palette.generate())` for one recolored
pixel of the fractal overlay; may raise like `resolveParticle`. -/
def resolvePixel (palette : ColorPalette) (pd : PixelDraw) : Except String RGB :=
  match palette.generate pd.palRand 10 with
  | .error e => .error e
  | .ok colors => randChoice colors pd.pick

/-- One row of the fractal overlay: walk the pixels (column index starting
at `j`), recoloring each pixel where the 0.001 coin fired, aborting on the
first palette error. -/
def recolorRowFrom (palette : ColorPalette) (coin : ℕ → ℕ → Bool)
    (pd : ℕ → ℕ → PixelDraw) (i : ℕ) :
    ℕ → List RGB → Except String (List RGB)
  | _, [] => .ok []
  | j, p :: rest =>
    match (if coin i j then resolvePixel palette (pd i j) else .ok p) with
    | .error e => .error e
    | .ok q =>
      match recolorRowFrom palette coin pd i (j + 1) rest with
      | .error e => .error e
      | .ok qs => .ok (q :: qs)

/-- All rows of the fractal overlay (row index starting at `i`). -/
def recolorGridFrom (palette : ColorPalette) (coin : ℕ → ℕ → Bool)
    (pd : ℕ → ℕ → PixelDraw) : ℕ → Image → Except String Image
  | _, [] => .ok []
  | i, row :: rest =>
    match recolorRowFrom palette coin pd i 0 row with
    | .error e => .error e
    | .ok r =>
      match recolorGridFrom palette coin pd (i + 1) rest with
      | .error e => .error e
      | .ok rs => .ok (r :: rs)

/-- `OverlayArtist.fractal_overlay`: for every pixel, with probability 0.001
(`coin x y` records whether `random.random() < 0.001` fired there), recolor
that single pixel with `random.choice(self.palette.generate())` — a call
that can raise for an unknown palette type or an empty custom palette. -/
def fractal_overlay (palette : ColorPalette) (img : Image)
    (coin : ℕ → ℕ → Bool) (pd : ℕ → ℕ → PixelDraw) : Except String Image :=
  recolorGridFrom palette coin pd 0 img

/-- The random draws of one `cellular_automata` update:
`x = randint(0, shape[0] - 1)`, `y = randint(0, shape[1] - 1)`, and the
perturbation `randint(-10, 10)`. -/
structure CellChoice where
  x : ℕ
  y : ℕ
  perturb : ℤ
deriving DecidableEq

/-- Support of one cellular update's draws (`randint` inclusive at both
ends). -/
def CellChoice.valid (rows cols : ℕ) (c : CellChoice) : Prop :=
  c.x ≤ rows - 1 ∧ c.y ≤ cols - 1 ∧ -10 ≤ c.perturb ∧ c.perturb ≤ 10

/-- Python slice `l[a:b]` (start clipped to 0 by ℕ subtraction at the call
sites, end clipped to the list length by `take`). -/
def slice {α : Type} (l : List α) (a b : ℕ) : List α :=
  (l.drop a).take (b - a)

/-- `pixels[max(0, x - 1):x + 2, max(0, y - 1):y + 2]` flattened: the
up-to-3×3 neighborhood of `(x, y)`, clipped at the image edges with no
wraparound (ℕ subtraction gives `x - 1 = max(0, x - 1)`). -/
def neighborsOf (img : Image) (x y : ℕ) : List RGB :=
  ((slice img (x - 1) (x + 2)).map fun row => slice row (y - 1) (y + 2)).flatten

/-- Red-channel mean of a pixel list (`neighbors.mean(axis=(0, 1))`). -/
def meanR (ns : List RGB) : ℚ := ((ns.map RGB.r).sum : ℚ) / (ns.length : ℚ)

/-- Green-channel mean of a pixel list. -/
def meanG (ns : List RGB) : ℚ := ((ns.map RGB.g).sum : ℚ) / (ns.length : ℚ)

/-- Blue-channel mean of a pixel list. -/
def meanB (ns : List RGB) : ℚ := ((ns.map RGB.b).sum : ℚ) / (ns.length : ℚ)

/-- One iteration of the `cellular_automata` loop: read the chosen cell's
neighborhood from the current array, take its per-channel mean, add the SAME
scalar perturbation to every channel (numpy broadcast), and store the
result; the store C-casts each float channel into the `uint8` array
(truncation toward zero, then wrap modulo 256 — `castUint8`). -/
def cellularStep (img : Image) (c : CellChoice) : Image :=
  let ns := neighborsOf img c.x c.y
  setPixel img c.x c.y
    ⟨castUint8 (meanR ns + (c.perturb : ℚ)),
     castUint8 (meanG ns + (c.perturb : ℚ)),
     castUint8 (meanB ns + (c.perturb : ℚ))⟩

/-- `OverlayArtist.cellular_automata`: perform `iterations` (default 100)
single-cell updates; the final `pixels.astype("uint8")` is a no-op because
every stored value is already a uint8. -/
def cellular_automata (ps : ParameterSet) (img : Image)
    (rand : ℕ → CellChoice) : Image :=
  (List.range (ps.getNat "iterations" 100)).foldl
    (fun im k => cellularStep im (rand k)) img

/-- The randomness consumed by the three possible overlay branches. -/
structure OverlayRand where
  particle : ℕ → ParticleDraw
  coin : ℕ → ℕ → Bool
  pixel : ℕ → ℕ → PixelDraw
  cell : ℕ → CellChoice

/-- `OverlayArtist.apply_overlay`: build the grayscale base image (step 1),
then dispatch on the `overlay_type` parameter (default `"particles"`); an
unknown type raises `ValueError("Unknown overlay type.")`. The particles and
fractal branches use `self.palette` and propagate any error its `generate`
(or the subsequent `random.choice`) raises. -/
def apply_overlay (ps : ParameterSet) (palette : ColorPalette)
    (rnd : OverlayRand) (hm : List (List ℚ)) : Except String Image :=
  let image := grayImage hm
  let overlay_type := ps.get "overlay_type" (.strv "particles")
  if overlay_type = .strv "particles" then
    particle_overlay ps palette image rnd.particle
  else if overlay_type = .strv "fractal" then
    fractal_overlay palette image rnd.coin rnd.pixel
  else if overlay_type = .strv "cellular" then
    .ok (cellular_automata ps image rnd.cell)
  else
    .error "Unknown overlay type."

/-! ### Concrete inputs used by the witness theorems -/

/-- Concrete landscape parameters for the C1 witness: size 2, scale 1. -/
def psW1 : ParameterSet := fun k =>
  if k = "size" then some (.natv 2)
  else if k = "scale" then some (.ratv 1)
  else none

/-- Concrete (non-constant) stand-in for the noise function in the C1 witness. -/
def noiseW1 : ℚ → ℚ → ℚ := fun a b => a + b

/-- A concrete `random_color()` result stream for the palette witnesses. -/
def rcW5 : ℕ → RGB := fun k => ⟨50 + k, 200, 70⟩

/-- A concrete particle-draw stream for the C3 witness: all draws valid for
a 4 × 4 image. -/
def randW3 : ℕ → ParticleDraw :=
  fun k => ⟨k % 4, 2, fun _ => ⟨60, 70, 80⟩, 0, 1 + k % 5⟩

/-- An empty parameter set (every consumer falls back to its default). -/
def psW3 : ParameterSet := fun _ => none

/-- A concrete one-color custom palette for the particle witnesses. -/
def palW7 : ColorPalette := ⟨"custom", [⟨1, 2, 3⟩]⟩

/-- Overlay parameters running one cellular iteration. -/
def psW4 : ParameterSet := fun k =>
  if k = "iterations" then some (.natv 1) else none

/-- Overlay parameters drawing two particles. -/
def psW7 : ParameterSet := fun k =>
  if k = "num_particles" then some (.natv 2) else none

/-- A concrete particle-draw stream for the C7 witness: circles of radius 2
centered at `(9, 9)`, far from the probed pixel `(0, 0)`. -/
def randW7 : ℕ → ParticleDraw := fun _ => ⟨9, 9, fun _ => ⟨60, 70, 80⟩, 0, 2⟩

/-- Overlay parameters for the C6 counterexample: a VALID overlay type
(`"particles"`) and one particle. -/
def psC6 : ParameterSet := fun k =>
  if k = "overlay_type" then some (.strv "particles")
  else if k = "num_particles" then some (.natv 1)
  else none

/-- A palette with an unknown type for the C6 counterexample. -/
def palC6 : ColorPalette := ⟨"plasma", []⟩

/-- Concrete overlay randomness for the C6 counterexample. -/
def rndC6 : OverlayRand :=
  ⟨fun _ => ⟨0, 0, fun _ => ⟨0, 0, 0⟩, 0, 1⟩,
   fun _ _ => false,
   fun _ _ => ⟨fun _ => ⟨0, 0, 0⟩, 0⟩,
   fun _ => ⟨0, 0, 0⟩⟩

/-- Overlay parameters running zero cellular iterations. -/
def psW9 : ParameterSet := fun k =>
  if k = "iterations" then some (.natv 0) else none

/-! ### Helper lemmas -/

theorem truncQ_natCast (n : ℕ) : truncQ (n : ℚ) = n := by
  unfold truncQ
  rw [if_neg (not_lt.mpr (by positivity))]
  exact Int.floor_natCast n

theorem castUint8_le (q : ℚ) : castUint8 q ≤ 255 := by
  unfold castUint8
  have h1 : truncQ q % 256 < 256 := Int.emod_lt_of_pos _ (by norm_num)
  omega

/-- For a rational already in `[0, 255]`, the uint8 cast is just the floor
(no wrap-around happens). -/
theorem castUint8_of_mem_Icc {q : ℚ} (h0 : 0 ≤ q) (h1 : q ≤ 255) :
    (castUint8 q : ℤ) = ⌊q⌋ := by
  unfold castUint8 truncQ
  rw [if_neg (not_lt.mpr h0)]
  have hf0 : 0 ≤ ⌊q⌋ := Int.floor_nonneg.mpr h0
  have hf1 : ⌊q⌋ ≤ 255 := by
    have := Int.floor_le_floor h1 (α := ℚ)
    simpa using this
  rw [Int.emod_eq_of_lt hf0 (by omega)]
  omega

theorem lmin_le {l : List ℚ} {x : ℚ} (hx : x ∈ l) : lmin l ≤ x := by
  induction l with
  | nil => cases hx
  | cons a t ih =>
    cases t with
    | nil =>
      rcases List.mem_singleton.mp hx with rfl
      exact le_refl _
    | cons b t2 =>
      rw [lmin]
      rcases List.mem_cons.mp hx with rfl | hmem
      · exact min_le_left _ _
      · exact le_trans (min_le_right _ _) (ih hmem)

theorem le_lmax {l : List ℚ} {x : ℚ} (hx : x ∈ l) : x ≤ lmax l := by
  induction l with
  | nil => cases hx
  | cons a t ih =>
    cases t with
    | nil =>
      rcases List.mem_singleton.mp hx with rfl
      exact le_refl _
    | cons b t2 =>
      rw [lmax]
      rcases List.mem_cons.mp hx with rfl | hmem
      · exact le_max_left _ _
      · exact le_trans (ih hmem) (le_max_right _ _)

theorem lmin_map_mono {φ : ℚ → ℚ} (hφ : Monotone φ) :
    ∀ {l : List ℚ}, l ≠ [] → lmin (l.map φ) = φ (lmin l) := by
  intro l
  induction l with
  | nil => intro h; exact absurd rfl h
  | cons a t ih =>
    intro _
    cases t with
    | nil => simp [lmin]
    | cons b t2 =>
      rw [List.map_cons, List.map_cons, lmin, lmin, ← List.map_cons]
      rw [ih (by simp), hφ.map_min]

theorem lmax_map_mono {φ : ℚ → ℚ} (hφ : Monotone φ) :
    ∀ {l : List ℚ}, l ≠ [] → lmax (l.map φ) = φ (lmax l) := by
  intro l
  induction l with
  | nil => intro h; exact absurd rfl h
  | cons a t ih =>
    intro _
    cases t with
    | nil => simp [lmax]
    | cons b t2 =>
      rw [List.map_cons, List.map_cons, lmax, lmax, ← List.map_cons]
      rw [ih (by simp), hφ.map_max]

theorem rawHeightmap_length (noiseF : ℚ → ℚ → ℚ) (ps : ParameterSet) :
    (rawHeightmap noiseF ps).length = ps.getNat "size" 512 := by
  rw [rawHeightmap, List.length_map, List.length_range]

theorem rawHeightmap_flatten_length (noiseF : ℚ → ℚ → ℚ) (ps : ParameterSet) :
    (rawHeightmap noiseF ps).flatten.length =
      ps.getNat "size" 512 * ps.getNat "size" 512 := by
  rw [rawHeightmap, List.length_flatten, List.map_map]
  have hc : ∀ n (g : ℕ → List ℚ), (∀ i, (g i).length = n) →
      ((List.range n).map (List.length ∘ g)).sum = n * n := by
    intro n g hg
    have : (List.length ∘ g) = fun _ => n := funext fun i => hg i
    rw [this, List.map_const', List.length_range, List.sum_replicate, smul_eq_mul]
  exact hc _ _ fun i => by rw [List.length_map, List.length_range]

theorem rawHeightmap_flatten_ne_nil (noiseF : ℚ → ℚ → ℚ) (ps : ParameterSet)
    (h : 1 ≤ ps.getNat "size" 512) : (rawHeightmap noiseF ps).flatten ≠ [] := by
  have hlen := rawHeightmap_flatten_length noiseF ps
  intro hnil
  rw [hnil, List.length_nil] at hlen
  exact (Nat.mul_pos h h).ne' hlen.symm

theorem rawHeightmap_row_length (noiseF : ℚ → ℚ → ℚ) (ps : ParameterSet) :
    ∀ row ∈ rawHeightmap noiseF ps, row.length = ps.getNat "size" 512 := by
  intro row hrow
  rw [rawHeightmap] at hrow
  rcases List.mem_map.mp hrow with ⟨i, _, rfl⟩
  rw [List.length_map, List.length_range]

theorem linspace10_eq :
    linspace10 = [0, 1/9, 2/9, 3/9, 4/9, 5/9, 6/9, 7/9, 8/9, 1] := by
  norm_num [linspace10, List.range_succ]

theorem interpChannel_zero (s e : ℕ) : interpChannel s e 0 = s := by
  unfold interpChannel
  rw [mul_zero, add_zero, truncQ_natCast, Int.toNat_natCast]

theorem interpChannel_one (s e : ℕ) : interpChannel s e 1 = e := by
  unfold interpChannel
  rw [mul_one]
  have h : (s : ℚ) + ((e : ℚ) - (s : ℚ)) = (e : ℚ) := by ring
  rw [h, truncQ_natCast, Int.toNat_natCast]

theorem mapRowFrom_length (f : ℕ → RGB → RGB) :
    ∀ (j : ℕ) (l : List RGB), (mapRowFrom f j l).length = l.length := by
  intro j l
  induction l generalizing j with
  | nil => rfl
  | cons p rest ih => simp [mapRowFrom, ih]

theorem mapRowFrom_getElem (f : ℕ → RGB → RGB) :
    ∀ (l : List RGB) (j k : ℕ),
      (mapRowFrom f j l)[k]? = (l[k]?).map (f (j + k)) := by
  intro l
  induction l with
  | nil => intro j k; simp [mapRowFrom]
  | cons p rest ih =>
    intro j k
    cases k with
    | zero => simp [mapRowFrom]
    | succ k2 =>
      rw [mapRowFrom]
      simp only [List.getElem?_cons_succ]
      rw [ih (j + 1) k2]
      have : j + 1 + k2 = j + (k2 + 1) := by omega
      rw [this]

theorem mapGridFrom_getElem (f : ℕ → ℕ → RGB → RGB) :
    ∀ (img : Image) (s i : ℕ),
      (mapGridFrom f s img)[i]? =
        (img[i]?).map fun row => mapRowFrom (f (s + i)) 0 row := by
  intro img
  induction img with
  | nil => intro s i; simp [mapGridFrom]
  | cons row rest ih =>
    intro s i
    cases i with
    | zero => simp [mapGridFrom]
    | succ i2 =>
      rw [mapGridFrom]
      simp only [List.getElem?_cons_succ]
      rw [ih (s + 1) i2]
      have : s + 1 + i2 = s + (i2 + 1) := by omega
      rw [this]

theorem getPixel_mapGridFrom (f : ℕ → ℕ → RGB → RGB) (img : Image) (i j : ℕ) :
    getPixel (mapGridFrom f 0 img) i j = (getPixel img i j).map (f i j) := by
  unfold getPixel
  rw [mapGridFrom_getElem]
  cases hrow : img[i]? with
  | none => rfl
  | some row =>
    show ((some (mapRowFrom (f (0 + i)) 0 row)).bind fun r => r[j]?) =
      Option.map (f i j) row[j]?
    rw [Option.some_bind, mapRowFrom_getElem, Nat.zero_add, Nat.zero_add]

theorem shape_mapGridFrom (f : ℕ → ℕ → RGB → RGB) :
    ∀ (s : ℕ) (img : Image), shape (mapGridFrom f s img) = shape img := by
  intro s img
  induction img generalizing s with
  | nil => rfl
  | cons row rest ih =>
    rw [mapGridFrom]
    show (mapRowFrom (f s) 0 row).length :: shape (mapGridFrom f (s + 1) rest) =
      row.length :: shape rest
    rw [mapRowFrom_length, ih]

theorem getPixel_setPixel_self (img : Image) (x y : ℕ) (c : RGB) (row : List RGB)
    (hrow : img[x]? = some row) (hy : y < row.length) :
    getPixel (setPixel img x y c) x y = some c := by
  have hx : x < img.length := by
    by_contra hge
    rw [List.getElem?_eq_none (by omega)] at hrow
    cases hrow
  unfold setPixel getPixel
  rw [hrow]
  simp only
  rw [List.getElem?_set_eq_of_lt _ (by simpa using hx)]
  simp only [Option.some_bind]
  exact List.getElem?_set_eq_of_lt _ (by simpa using hy)

theorem generate_error_msg (p : ColorPalette) (rc : ℕ → RGB) (n : ℕ) (e : String)
    (h : p.generate rc n = .error e) : e = "Unknown palette type." := by
  unfold ColorPalette.generate at h
  split at h
  · exact Except.noConfusion h
  · split at h
    · exact Except.noConfusion h
    · split at h
      · exact Except.noConfusion h
      · injection h with he
        exact he.symm

theorem randChoice_error_msg {α : Type} (l : List α) (pick : ℕ) (e : String)
    (h : randChoice l pick = .error e) :
    e = "Cannot choose from an empty sequence" := by
  cases l with
  | nil =>
    simp only [randChoice] at h
    injection h with he
    exact he.symm
  | cons a rest =>
    simp only [randChoice] at h
    exact Except.noConfusion h

theorem resolveParticle_ok_fields (palette : ColorPalette) (d : ParticleDraw)
    (c : ParticleChoice) (h : resolveParticle palette d = .ok c) :
    c.x = d.x ∧ c.y = d.y ∧ c.radius = d.radius := by
  unfold resolveParticle at h
  split at h
  · exact Except.noConfusion h
  · split at h
    · exact Except.noConfusion h
    · injection h with hc
      subst hc
      exact ⟨rfl, rfl, rfl⟩

theorem resolveParticle_error_msg (palette : ColorPalette) (d : ParticleDraw)
    (e : String) (h : resolveParticle palette d = .error e) :
    e = "Unknown palette type." ∨ e = "Cannot choose from an empty sequence" := by
  unfold resolveParticle at h
  split at h
  · rename_i e1 heq
    injection h with he
    subst he
    exact Or.inl (generate_error_msg _ _ _ e1 heq)
  · rename_i colors heq
    split at h
    · rename_i e2 heq2
      injection h with he
      subst he
      exact Or.inr (randChoice_error_msg colors d.pick e2 heq2)
    · exact Except.noConfusion h

theorem drawParticles_error_msg (palette : ColorPalette) :
    ∀ (ds : List ParticleDraw) (img : Image) (e : String),
      drawParticles palette img ds = .error e →
      e = "Unknown palette type." ∨ e = "Cannot choose from an empty sequence" := by
  intro ds
  induction ds with
  | nil =>
    intro img e h
    simp only [drawParticles] at h
    exact Except.noConfusion h
  | cons d rest ih =>
    intro img e h
    simp only [drawParticles] at h
    split at h
    · rename_i e1 heq
      injection h with he
      subst he
      exact resolveParticle_error_msg palette d e1 heq
    · rename_i c heq
      exact ih _ _ h

theorem drawParticles_ok_shape (palette : ColorPalette) :
    ∀ (ds : List ParticleDraw) (img out : Image),
      drawParticles palette img ds = .ok out → shape out = shape img := by
  intro ds
  induction ds with
  | nil =>
    intro img out h
    simp only [drawParticles] at h
    injection h with he
    rw [he]
  | cons d rest ih =>
    intro img out h
    simp only [drawParticles] at h
    split at h
    · exact Except.noConfusion h
    · rename_i c heq
      rw [ih _ _ h, drawCircleImg]
      exact shape_mapGridFrom _ 0 img

theorem drawParticles_ok_frame (palette : ColorPalette) (i j : ℕ) :
    ∀ (ds : List ParticleDraw),
      (∀ d ∈ ds, coveredB d.x d.y d.radius i j = false) →
      ∀ (img out : Image), drawParticles palette img ds = .ok out →
        getPixel out i j = getPixel img i j := by
  intro ds
  induction ds with
  | nil =>
    intro _ img out h
    simp only [drawParticles] at h
    injection h with he
    rw [he]
  | cons d rest ih =>
    intro hcov img out h
    simp only [drawParticles] at h
    split at h
    · exact Except.noConfusion h
    · rename_i c heq
      have hfields := resolveParticle_ok_fields palette d c heq
      have hc : coveredB c.x c.y c.radius i j = false := by
        rw [hfields.1, hfields.2.1, hfields.2.2]
        exact hcov d (List.mem_cons_self d rest)
      rw [ih (fun d2 hd2 => hcov d2 (List.mem_cons_of_mem d hd2)) _ _ h]
      rw [drawCircleImg, getPixel_mapGridFrom, hc]
      cases getPixel img i j <;> rfl

theorem drawParticles_ok_circles (palette : ColorPalette) (size : ℕ) :
    ∀ (ds : List ParticleDraw),
      (∀ d ∈ ds, d.x ≤ size ∧ d.y ≤ size ∧ 1 ≤ d.radius ∧ d.radius ≤ 5) →
      ∀ (img out : Image), drawParticles palette img ds = .ok out →
        ∃ cs : List ParticleChoice, cs.length = ds.length ∧
          out = cs.foldl drawCircleImg img ∧
          ∀ c ∈ cs, c.x ≤ size ∧ c.y ≤ size ∧ 1 ≤ c.radius ∧ c.radius ≤ 5 := by
  intro ds
  induction ds with
  | nil =>
    intro _ img out h
    simp only [drawParticles] at h
    injection h with he
    exact ⟨[], rfl, he.symm, by intro c hc; cases hc⟩
  | cons d rest ih =>
    intro hb img out h
    simp only [drawParticles] at h
    split at h
    · exact Except.noConfusion h
    · rename_i c heq
      obtain ⟨cs, hlen, hout, hcs⟩ :=
        ih (fun d2 hd2 => hb d2 (List.mem_cons_of_mem d hd2))
          (drawCircleImg img c) out h
      refine ⟨c :: cs, ?_, ?_, ?_⟩
      · rw [List.length_cons, hlen, List.length_cons]
      · rw [List.foldl_cons]
        exact hout
      · intro c2 hc2
        rcases List.mem_cons.mp hc2 with rfl | hmem
        · have hfields := resolveParticle_ok_fields palette d c2 heq
          have hbd := hb d (List.mem_cons_self d rest)
          rw [hfields.1, hfields.2.1, hfields.2.2]
          exact hbd
        · exact hcs c2 hmem

theorem resolvePixel_error_msg (palette : ColorPalette) (pd : PixelDraw) (e : String)
    (h : resolvePixel palette pd = .error e) :
    e = "Unknown palette type." ∨ e = "Cannot choose from an empty sequence" := by
  unfold resolvePixel at h
  split at h
  · rename_i e1 heq
    injection h with he
    subst he
    exact Or.inl (generate_error_msg _ _ _ e1 heq)
  · rename_i colors heq
    exact Or.inr (randChoice_error_msg colors pd.pick e h)

theorem recolorRowFrom_error_msg (palette : ColorPalette) (coin : ℕ → ℕ → Bool)
    (pd : ℕ → ℕ → PixelDraw) (i : ℕ) :
    ∀ (row : List RGB) (j : ℕ) (e : String),
      recolorRowFrom palette coin pd i j row = .error e →
      e = "Unknown palette type." ∨ e = "Cannot choose from an empty sequence" := by
  intro row
  induction row with
  | nil =>
    intro j e h
    simp only [recolorRowFrom] at h
    exact Except.noConfusion h
  | cons p rest ih =>
    intro j e h
    simp only [recolorRowFrom] at h
    split at h
    · rename_i e1 heq
      injection h with he
      subst he
      by_cases hcoin : coin i j
      · rw [if_pos hcoin] at heq
        exact resolvePixel_error_msg palette (pd i j) e1 heq
      · rw [if_neg hcoin] at heq
        exact Except.noConfusion heq
    · rename_i q heq
      split at h
      · rename_i e2 heq2
        injection h with he
        subst he
        exact ih (j + 1) e2 heq2
      · exact Except.noConfusion h

theorem recolorGridFrom_error_msg (palette : ColorPalette) (coin : ℕ → ℕ → Bool)
    (pd : ℕ → ℕ → PixelDraw) :
    ∀ (img : Image) (i : ℕ) (e : String),
      recolorGridFrom palette coin pd i img = .error e →
      e = "Unknown palette type." ∨ e = "Cannot choose from an empty sequence" := by
  intro img
  induction img with
  | nil =>
    intro i e h
    simp only [recolorGridFrom] at h
    exact Except.noConfusion h
  | cons row rest ih =>
    intro i e h
    simp only [recolorGridFrom] at h
    split at h
    · rename_i e1 heq
      injection h with he
      subst he
      exact recolorRowFrom_error_msg palette coin pd i row 0 e1 heq
    · rename_i r heq
      split at h
      · rename_i e2 heq2
        injection h with he
        subst he
        exact ih (i + 1) e2 heq2
      · exact Except.noConfusion h

theorem particle_overlay_error_msg (ps : ParameterSet) (palette : ColorPalette)
    (img : Image) (rand : ℕ → ParticleDraw) (e : String)
    (h : particle_overlay ps palette img rand = .error e) :
    e = "Unknown palette type." ∨ e = "Cannot choose from an empty sequence" :=
  drawParticles_error_msg palette _ _ _ h

theorem fractal_overlay_error_msg (palette : ColorPalette) (img : Image)
    (coin : ℕ → ℕ → Bool) (pd : ℕ → ℕ → PixelDraw) (e : String)
    (h : fractal_overlay palette img coin pd = .error e) :
    e = "Unknown palette type." ∨ e = "Cannot choose from an empty sequence" :=
  recolorGridFrom_error_msg palette coin pd img 0 e h

theorem shape_grayImage (hm : List (List ℚ)) :
    shape (grayImage hm) = hm.map List.length := by
  rw [grayImage, shape, List.map_map]
  congr 1
  funext row
  exact List.length_map _ _

theorem rawHeightmapW1 : rawHeightmap noiseW1 psW1 = [[0, 1], [1, 2]] := by
  simp [rawHeightmap, psW1, ParameterSet.getNat, ParameterSet.getRat, noiseW1,
    List.range_succ]
  norm_num

/-! ### Claim C1 -/

/-- Claim C1: for every size ≥ 1, when the sampled noise field is not
constant (max > min), `LandscapeGenerator.generate` returns a size × size
grid with all values in `[0, 1]`, minimum exactly 0 and maximum exactly 1,
obtained by min-max normalization of the raw noise grid. -/
theorem generate_minmax_normalized (noiseF : ℚ → ℚ → ℚ) (ps : ParameterSet)
    (hsize : 1 ≤ ps.getNat "size" 512)
    (hne : lmin (rawHeightmap noiseF ps).flatten <
      lmax (rawHeightmap noiseF ps).flatten) :
    (LandscapeGenerator.generate noiseF ps).length = ps.getNat "size" 512 ∧
    (∀ row ∈ LandscapeGenerator.generate noiseF ps,
      row.length = ps.getNat "size" 512) ∧
    (∀ row ∈ LandscapeGenerator.generate noiseF ps, ∀ v ∈ row, 0 ≤ v ∧ v ≤ 1) ∧
    lmin (LandscapeGenerator.generate noiseF ps).flatten = 0 ∧
    lmax (LandscapeGenerator.generate noiseF ps).flatten = 1 := by
  have hflat_ne := rawHeightmap_flatten_ne_nil noiseF ps hsize
  set raw := rawHeightmap noiseF ps with hraw
  set lo := lmin raw.flatten with hlo
  set hi := lmax raw.flatten with hhi
  have hpos : 0 < hi - lo := sub_pos.mpr hne
  set φ : ℚ → ℚ := fun v => (v - lo) / (hi - lo) with hφ
  have hmono : Monotone φ := fun a b hab =>
    (div_le_div_iff_of_pos_right hpos).mpr (sub_le_sub_right hab lo)
  have hgen : LandscapeGenerator.generate noiseF ps = raw.map (List.map φ) := rfl
  have hflatten : (raw.map (List.map φ)).flatten = raw.flatten.map φ :=
    (List.map_flatten φ raw).symm
  refine ⟨?_, ?_, ?_, ?_, ?_⟩
  · rw [hgen, List.length_map, hraw, rawHeightmap_length]
  · intro row hrow
    rw [hgen] at hrow
    rcases List.mem_map.mp hrow with ⟨r, hr, rfl⟩
    rw [List.length_map]
    exact rawHeightmap_row_length noiseF ps r hr
  · intro row hrow v hv
    rw [hgen] at hrow
    rcases List.mem_map.mp hrow with ⟨r, hr, rfl⟩
    rcases List.mem_map.mp hv with ⟨u, hu, rfl⟩
    have humem : u ∈ raw.flatten := List.mem_flatten.mpr ⟨r, hr, hu⟩
    constructor
    · exact div_nonneg (sub_nonneg.mpr (lmin_le humem)) hpos.le
    · exact (div_le_one hpos).mpr (sub_le_sub_right (le_lmax humem) lo)
  · rw [hgen, hflatten, lmin_map_mono hmono hflat_ne]
    show (lo - lo) / (hi - lo) = 0
    rw [sub_self, zero_div]
  · rw [hgen, hflatten, lmax_map_mono hmono hflat_ne]
    show (hi - lo) / (hi - lo) = 1
    exact div_self hpos.ne'

/-- Witness for C1 at a concrete non-constant 2 × 2 noise field. -/
theorem generate_minmax_normalized_witness :
    (1 ≤ psW1.getNat "size" 512) ∧
    (lmin (rawHeightmap noiseW1 psW1).flatten <
      lmax (rawHeightmap noiseW1 psW1).flatten) ∧
    lmin (LandscapeGenerator.generate noiseW1 psW1).flatten = 0 ∧
    lmax (LandscapeGenerator.generate noiseW1 psW1).flatten = 1 := by
  have h1 : 1 ≤ psW1.getNat "size" 512 := by decide
  have h2 : lmin (rawHeightmap noiseW1 psW1).flatten <
      lmax (rawHeightmap noiseW1 psW1).flatten := by
    rw [rawHeightmapW1]
    norm_num [lmin, lmax, List.flatten]
  exact ⟨h1, h2, (generate_minmax_normalized noiseW1 psW1 h1 h2).2.2.2⟩

/-! ### Claim C2 -/

/-- Counterexample to C2 as stated: at heightmap value `h = 1/2` the
grayscale base pixel is 127 (truncation of 127.5), while rounding `h * 255`
gives 128 — the code truncates, it does not round. -/
theorem gray_round_counterexample :
    getPixel (grayImage [[1/2]]) 0 0 = some ⟨127, 127, 127⟩ ∧
    round ((1/2 : ℚ) * 255) = 128 ∧ (127 : ℕ) ≠ 128 := by
  refine ⟨?_, ?_, by decide⟩
  · norm_num [getPixel, grayImage, castUint8, truncQ]
    rfl
  · norm_num [round_eq]

/-- Claim C2 (amended): for every normalized heightmap value `h` in
`[0, 1]`, the grayscale base pixel produced in step 1 equals the TRUNCATION
of `h * 255` (`⌊h * 255⌋`, since `h ≥ 0` — `astype("uint8")` truncates, it
does not round), and the image has three equal RGB channels. -/
theorem grayscale_base_truncates (h : ℚ) (h0 : 0 ≤ h) (h1 : h ≤ 1)
    (hm : List (List ℚ)) (i j : ℕ) (hij : (hm[i]?).bind (·[j]?) = some h) :
    getPixel (grayImage hm) i j =
      some ⟨(⌊h * 255⌋).toNat, (⌊h * 255⌋).toNat, (⌊h * 255⌋).toNat⟩ ∧
    (∀ p ∈ (grayImage hm).flatten, p.r = p.g ∧ p.g = p.b) := by
  have hcast : castUint8 (h * 255) = (⌊h * 255⌋).toNat := by
    have hq0 : 0 ≤ h * 255 := by positivity
    have hq1 : h * 255 ≤ 255 := by nlinarith
    have := castUint8_of_mem_Icc hq0 hq1
    omega
  constructor
  · unfold getPixel grayImage
    rw [List.getElem?_map]
    cases hrow : hm[i]? with
    | none => rw [hrow] at hij; cases hij
    | some row =>
      rw [hrow] at hij
      show ((some (row.map _)).bind fun r => r[j]?) = _
      rw [Option.some_bind, List.getElem?_map]
      rw [Option.some_bind] at hij
      rw [hij, Option.map_some', hcast]
  · intro p hp
    rw [grayImage] at hp
    rcases List.mem_flatten.mp hp with ⟨r2, hr2, hpr⟩
    rcases List.mem_map.mp hr2 with ⟨row, _, rfl⟩
    rcases List.mem_map.mp hpr with ⟨v, _, rfl⟩
    exact ⟨rfl, rfl⟩

/-- Witness for the amended C2 at `h = 1/2`. -/
theorem grayscale_base_truncates_witness :
    (0 ≤ (1/2 : ℚ)) ∧ ((1/2 : ℚ) ≤ 1) ∧
    (([[1/2]] : List (List ℚ))[0]?).bind (·[0]?) = some (1/2 : ℚ) ∧
    getPixel (grayImage [[1/2]]) 0 0 =
      some ⟨(⌊(1/2 : ℚ) * 255⌋).toNat, (⌊(1/2 : ℚ) * 255⌋).toNat,
            (⌊(1/2 : ℚ) * 255⌋).toNat⟩ := by
  have hsome : (([[1/2]] : List (List ℚ))[0]?).bind (·[0]?) = some (1/2 : ℚ) := rfl
  exact ⟨by norm_num, by norm_num, hsome,
    (grayscale_base_truncates (1/2) (by norm_num) (by norm_num) [[1/2]] 0 0 hsome).1⟩

/-! ### Claim C3 -/

/-- Counterexample to C3 as stated: on a 4 × 4 image, the draw with center
`x = 4` is inside the support of `randint(0, image.size[0])` (both endpoints
inclusive), yet `4 ≤ 4 - 1` fails — a center can lie one past the last
pixel index. -/
theorem particle_center_bound_counterexample :
    ParticleDraw.valid 4 ⟨4, 0, fun _ => ⟨0, 0, 0⟩, 0, 1⟩ ∧ ¬(4 ≤ 4 - 1) := by
  constructor
  · exact ⟨by decide, by decide, by decide, by decide⟩
  · decide

/-- Claim C3 (amended): each particle's center draw lies in `[0, size]`
(inclusive — `randint(0, size)` can return `size`, one past the last pixel
index `size - 1`) and its radius is an integer in `[1, 5]`; the loop
consumes exactly `num_particles` (default 500) draws, and whenever the
overlay completes without a palette error it has drawn exactly that many
circles, each with those bounds. -/
theorem particle_overlay_draws (ps : ParameterSet) (size : ℕ)
    (palette : ColorPalette) (rand : ℕ → ParticleDraw)
    (hv : ∀ k, (rand k).valid size) :
    (∀ img : Image, particle_overlay ps palette img rand =
      drawParticles palette img
        (particleChoices rand (ps.getNat "num_particles" 500))) ∧
    (particleChoices rand (ps.getNat "num_particles" 500)).length =
      ps.getNat "num_particles" 500 ∧
    (∀ d ∈ particleChoices rand (ps.getNat "num_particles" 500),
      d.x ≤ size ∧ d.y ≤ size ∧ 1 ≤ d.radius ∧ d.radius ≤ 5) ∧
    (∀ img out : Image, particle_overlay ps palette img rand = .ok out →
      ∃ cs : List ParticleChoice,
        cs.length = ps.getNat "num_particles" 500 ∧
        out = cs.foldl drawCircleImg img ∧
        ∀ c ∈ cs, c.x ≤ size ∧ c.y ≤ size ∧ 1 ≤ c.radius ∧ c.radius ≤ 5) := by
  have hlen : (particleChoices rand (ps.getNat "num_particles" 500)).length =
      ps.getNat "num_particles" 500 := by
    rw [particleChoices, List.length_map, List.length_range]
  have hbounds : ∀ d ∈ particleChoices rand (ps.getNat "num_particles" 500),
      d.x ≤ size ∧ d.y ≤ size ∧ 1 ≤ d.radius ∧ d.radius ≤ 5 := by
    intro d hd
    rcases List.mem_map.mp hd with ⟨k, _, rfl⟩
    exact hv k
  refine ⟨fun img => rfl, hlen, hbounds, ?_⟩
  intro img out hok
  obtain ⟨cs, hcl, hout, hcs⟩ :=
    drawParticles_ok_circles palette size _ hbounds img out hok
  exact ⟨cs, by rw [hcl, hlen], hout, hcs⟩

/-- Witness for the amended C3 with a concrete valid draw stream. -/
theorem particle_overlay_draws_witness :
    (∀ k, (randW3 k).valid 4) ∧
    (particleChoices randW3 (psW3.getNat "num_particles" 500)).length =
      psW3.getNat "num_particles" 500 := by
  have hv : ∀ k, (randW3 k).valid 4 := by
    intro k
    simp only [randW3, ParticleDraw.valid]
    refine ⟨by omega, by omega, by omega, by omega⟩
  exact ⟨hv, (particle_overlay_draws psW3 4 palW7 randW3 hv).2.1⟩

/-! ### Claim C4 -/

/-- Counterexample to C4 as stated: on a 1 × 1 all-255 image with
perturbation +10, one cellular iteration produces the intermediate value
`255 + 10 = 265`, and the stored pixel is `9 = 265 mod 256`, not the
claimed clip to 255. -/
theorem cellular_wrap_counterexample :
    cellular_automata psW4 [[⟨255, 255, 255⟩]] (fun _ => ⟨0, 0, 10⟩) =
      [[⟨9, 9, 9⟩]] ∧ (9 : ℕ) ≠ 255 := by
  refine ⟨?_, by decide⟩
  have hiter : psW4.getNat "iterations" 100 = 1 := rfl
  rw [cellular_automata, hiter]
  show cellularStep [[⟨255, 255, 255⟩]] ⟨0, 0, 10⟩ = [[⟨9, 9, 9⟩]]
  rw [cellularStep]
  have hns : neighborsOf [[⟨255, 255, 255⟩]] 0 0 = [⟨255, 255, 255⟩] := rfl
  rw [hns]
  have hmr : meanR [⟨255, 255, 255⟩] + ((10 : ℤ) : ℚ) = 265 := by
    norm_num [meanR]
  have hmg : meanG [⟨255, 255, 255⟩] + ((10 : ℤ) : ℚ) = 265 := by
    norm_num [meanG]
  have hmb : meanB [⟨255, 255, 255⟩] + ((10 : ℤ) : ℚ) = 265 := by
    norm_num [meanB]
  rw [hmr, hmg, hmb]
  have hc : castUint8 (265 : ℚ) = 9 := by
    norm_num [castUint8, truncQ]
    rfl
  rw [hc]
  rfl

/-- Claim C4 (amended): each cellular update stores, in every channel, the
uint8 CAST of (neighborhood mean + the same scalar perturbation): truncation
toward zero followed by reduction modulo 256. The stored value always lands
in `[0, 255]`, but an intermediate value below 0 or above 255 WRAPS
(`265 ↦ 9`, `-10 ↦ 246`) instead of clipping to 0 or 255. -/
theorem cellular_update_wraps (img : Image) (c : CellChoice) (row : List RGB)
    (hrow : img[c.x]? = some row) (hy : c.y < row.length) :
    getPixel (cellularStep img c) c.x c.y =
      some ⟨castUint8 (meanR (neighborsOf img c.x c.y) + (c.perturb : ℚ)),
            castUint8 (meanG (neighborsOf img c.x c.y) + (c.perturb : ℚ)),
            castUint8 (meanB (neighborsOf img c.x c.y) + (c.perturb : ℚ))⟩ ∧
    (∀ q : ℚ, castUint8 q ≤ 255) ∧
    castUint8 (265 : ℚ) = 9 ∧ castUint8 (-10 : ℚ) = 246 := by
  refine ⟨?_, castUint8_le, ?_, ?_⟩
  · exact getPixel_setPixel_self img c.x c.y _ row hrow hy
  · norm_num [castUint8, truncQ]
    rfl
  · norm_num [castUint8, truncQ]
    rfl

/-- Witness for the amended C4 on a concrete 1 × 1 image. -/
theorem cellular_update_wraps_witness :
    (([[⟨255, 255, 255⟩]] : Image)[0]? = some [⟨255, 255, 255⟩]) ∧ (0 < 1) ∧
    getPixel (cellularStep [[⟨255, 255, 255⟩]] ⟨0, 0, 10⟩) 0 0 =
      some ⟨castUint8 (meanR (neighborsOf [[⟨255, 255, 255⟩]] 0 0) + ((10 : ℤ) : ℚ)),
            castUint8 (meanG (neighborsOf [[⟨255, 255, 255⟩]] 0 0) + ((10 : ℤ) : ℚ)),
            castUint8 (meanB (neighborsOf [[⟨255, 255, 255⟩]] 0 0) + ((10 : ℤ) : ℚ))⟩ := by
  refine ⟨rfl, by decide, ?_⟩
  exact (cellular_update_wraps [[⟨255, 255, 255⟩]] ⟨0, 0, 10⟩ [⟨255, 255, 255⟩]
    rfl (by decide)).1

/-! ### Claim C5 -/

/-- Claim C5: for every `num_colors` argument, a gradient palette returns
exactly 10 colors — the linear interpolation between the two sampled
endpoint colors at the 10 evenly spaced `linspace10` points (both endpoints
included), each channel truncated toward zero — with first color the start
endpoint and last color the end endpoint. -/
theorem gradient_generate_ten (p : ColorPalette) (hp : p.palette_type = "gradient")
    (rc : ℕ → RGB) (n : ℕ) :
    p.generate rc n = .ok (ColorPalette.gradient_colors (rc 0) (rc 1)) ∧
    (ColorPalette.gradient_colors (rc 0) (rc 1)).length = 10 ∧
    (ColorPalette.gradient_colors (rc 0) (rc 1)).head? = some (rc 0) ∧
    (ColorPalette.gradient_colors (rc 0) (rc 1)).getLast? = some (rc 1) ∧
    (∀ k, k < 10 →
      (ColorPalette.gradient_colors (rc 0) (rc 1))[k]? =
        some ⟨interpChannel (rc 0).r (rc 1).r ((k : ℚ) / 9),
              interpChannel (rc 0).g (rc 1).g ((k : ℚ) / 9),
              interpChannel (rc 0).b (rc 1).b ((k : ℚ) / 9)⟩) := by
  refine ⟨?_, ?_, ?_, ?_, ?_⟩
  · unfold ColorPalette.generate
    rw [hp]
    rw [if_neg (by decide), if_pos rfl]
  · rw [ColorPalette.gradient_colors, List.length_map, linspace10,
      List.length_map, List.length_range]
  · rw [ColorPalette.gradient_colors, linspace10_eq]
    simp [interpChannel_zero]
  · rw [ColorPalette.gradient_colors, linspace10_eq]
    simp [interpChannel_one]
  · intro k hk
    rw [ColorPalette.gradient_colors, linspace10_eq]
    interval_cases k <;> norm_num

/-- Witness for C5 at a concrete gradient palette. -/
theorem gradient_generate_ten_witness :
    (ColorPalette.mk "gradient" []).palette_type = "gradient" ∧
    (ColorPalette.gradient_colors (rcW5 0) (rcW5 1)).length = 10 ∧
    (ColorPalette.gradient_colors (rcW5 0) (rcW5 1)).head? = some ⟨50, 200, 70⟩ ∧
    (ColorPalette.gradient_colors (rcW5 0) (rcW5 1)).getLast? = some ⟨51, 200, 70⟩ := by
  have h := gradient_generate_ten (ColorPalette.mk "gradient" []) rfl rcW5 3
  exact ⟨rfl, h.2.1, h.2.2.1, h.2.2.2.1⟩

/-! ### Claim C6 -/

/-- Counterexample to C6 as stated: with the VALID overlay type
`"particles"` but an unknown palette type, `apply_overlay` still raises a
`ValueError` — `ValueError("Unknown palette type.")` from the
`self.palette.generate()` call inside the particle loop — so "raises iff
`overlay_type` is present and unknown" fails in the only-if direction. -/
theorem apply_overlay_palette_error_counterexample :
    psC6 "overlay_type" = some (.strv "particles") ∧
    apply_overlay psC6 palC6 rndC6 [[0]] = .error "Unknown palette type." ∧
    "Unknown palette type." ≠ "Unknown overlay type." := by
  refine ⟨rfl, ?_, by decide⟩
  rfl

/-- Claim C6 (amended): `apply_overlay` raises the configuration error
`ValueError("Unknown overlay type.")` if and only if the `overlay_type`
parameter is present and not one of `"particles"`, `"fractal"`,
`"cellular"` (when absent it defaults to `"particles"`), and in that case
the error branch returns no image, so no overlay mutation is applied. With
a valid overlay type that error never occurs, but the particles and fractal
branches may still propagate a palette error — `ValueError("Unknown palette
type.")` or `IndexError` from `random.choice` on an empty palette — raised
inside their per-element `palette.generate()` calls. -/
theorem apply_overlay_unknown_error_iff (ps : ParameterSet)
    (palette : ColorPalette) (rnd : OverlayRand) (hm : List (List ℚ)) :
    apply_overlay ps palette rnd hm = .error "Unknown overlay type." ↔
      (∃ v, ps "overlay_type" = some v ∧ v ≠ .strv "particles" ∧
        v ≠ .strv "fractal" ∧ v ≠ .strv "cellular") := by
  have hpart : ∀ (img : Image) (rand : ℕ → ParticleDraw),
      particle_overlay ps palette img rand ≠ .error "Unknown overlay type." := by
    intro img rand hcontra
    rcases particle_overlay_error_msg ps palette img rand _ hcontra with he | he <;>
      exact absurd he (by decide)
  have hfrac : ∀ img : Image,
      fractal_overlay palette img rnd.coin rnd.pixel ≠
        .error "Unknown overlay type." := by
    intro img hcontra
    rcases fractal_overlay_error_msg palette img rnd.coin rnd.pixel _ hcontra
      with he | he <;> exact absurd he (by decide)
  unfold apply_overlay ParameterSet.get
  cases hv : ps "overlay_type" with
  | none =>
    simp only [Option.getD_none, if_pos rfl]
    constructor
    · intro hcontra
      exact absurd hcontra (hpart _ _)
    · rintro ⟨v, hv2, -, -, -⟩
      exact Option.noConfusion hv2
  | some v =>
    simp only [Option.getD_some, Option.some.injEq]
    by_cases h1 : v = .strv "particles"
    · rw [if_pos h1]
      constructor
      · intro hcontra
        exact absurd hcontra (hpart _ _)
      · rintro ⟨v2, hv2, hne, -, -⟩
        exact absurd (hv2.symm.trans h1) hne
    · rw [if_neg h1]
      by_cases h2 : v = .strv "fractal"
      · rw [if_pos h2]
        constructor
        · intro hcontra
          exact absurd hcontra (hfrac _)
        · rintro ⟨v2, hv2, -, hne, -⟩
          exact absurd (hv2.symm.trans h2) hne
      · rw [if_neg h2]
        by_cases h3 : v = .strv "cellular"
        · rw [if_pos h3]
          constructor
          · intro hcontra
            exact Except.noConfusion hcontra
          · rintro ⟨v2, hv2, -, -, hne⟩
            exact absurd (hv2.symm.trans h3) hne
        · rw [if_neg h3]
          constructor
          · intro _
            exact ⟨v, rfl, h1, h2, h3⟩
          · intro _
            rfl

/-! ### Claim C7 -/

/-- Claim C7: when the particle overlay completes and returns an image, that
image's shape equals the input heightmap's shape, and every pixel not
covered by any drawn circle still holds its grayscale base value from
step 1. -/
theorem particle_overlay_frame (ps : ParameterSet) (palette : ColorPalette)
    (hm : List (List ℚ)) (rand : ℕ → ParticleDraw) (i j : ℕ) (out : Image)
    (hok : particle_overlay ps palette (grayImage hm) rand = .ok out)
    (huncov : ∀ k, k < ps.getNat "num_particles" 500 →
      coveredB (rand k).x (rand k).y (rand k).radius i j = false) :
    shape out = hm.map List.length ∧
    getPixel out i j = getPixel (grayImage hm) i j := by
  have hcov : ∀ d ∈ particleChoices rand (ps.getNat "num_particles" 500),
      coveredB d.x d.y d.radius i j = false := by
    intro d hd
    rcases List.mem_map.mp hd with ⟨k, hk, rfl⟩
    exact huncov k (List.mem_range.mp hk)
  constructor
  · rw [drawParticles_ok_shape palette _ _ _ hok, shape_grayImage]
  · exact drawParticles_ok_frame palette i j _ hcov _ _ hok

/-- Witness for C7: two circles drawn far away from the probed pixel, with
a palette the color resolution succeeds on. -/
theorem particle_overlay_frame_witness :
    particle_overlay psW7 palW7 (grayImage [[0, 1], [1, 0]]) randW7 =
      .ok (grayImage [[0, 1], [1, 0]]) ∧
    (∀ k, k < psW7.getNat "num_particles" 500 →
      coveredB (randW7 k).x (randW7 k).y (randW7 k).radius 0 0 = false) ∧
    shape (grayImage [[0, 1], [1, 0]]) =
      ([[0, 1], [1, 0]] : List (List ℚ)).map List.length := by
  have hok : particle_overlay psW7 palW7 (grayImage [[0, 1], [1, 0]]) randW7 =
      .ok (grayImage [[0, 1], [1, 0]]) := rfl
  have hcov : ∀ k, k < psW7.getNat "num_particles" 500 →
      coveredB (randW7 k).x (randW7 k).y (randW7 k).radius 0 0 = false := by
    intro k _
    show coveredB 9 9 2 0 0 = false
    decide
  exact ⟨hok, hcov,
    (particle_overlay_frame psW7 palW7 [[0, 1], [1, 0]] randW7 0 0
      (grayImage [[0, 1], [1, 0]]) hok hcov).1⟩

/-! ### Claim C8 -/

/-- Claim C8: a custom palette returns the stored color list unchanged for
every `num_colors` argument, and two `generate` calls (with any randomness
and any counts) agree. -/
theorem custom_generate_idempotent (p : ColorPalette)
    (hp : p.palette_type = "custom") (rc rc2 : ℕ → RGB) (n m : ℕ) :
    p.generate rc n = .ok p.custom_colors ∧
    p.generate rc2 m = p.generate rc n := by
  unfold ColorPalette.generate
  rw [hp]
  rw [if_neg (by decide), if_neg (by decide), if_pos rfl]
  exact ⟨rfl, rfl⟩

/-- Witness for C8 at a concrete custom palette. -/
theorem custom_generate_idempotent_witness :
    (ColorPalette.mk "custom" [⟨1, 2, 3⟩]).palette_type = "custom" ∧
    (ColorPalette.mk "custom" [⟨1, 2, 3⟩]).generate rcW5 4 = .ok [⟨1, 2, 3⟩] := by
  have h := custom_generate_idempotent (ColorPalette.mk "custom" [⟨1, 2, 3⟩]) rfl
    rcW5 rcW5 4 7
  exact ⟨rfl, h.1⟩

/-! ### Claim C9 -/

/-- Claim C9: the cellular overlay with `iterations = 0` is the identity —
the returned image is pixel-identical to the grayscale base image from
step 1. -/
theorem cellular_zero_iterations (ps : ParameterSet)
    (h : ps "iterations" = some (.natv 0)) (hm : List (List ℚ))
    (rand : ℕ → CellChoice) :
    cellular_automata ps (grayImage hm) rand = grayImage hm := by
  rw [cellular_automata, ParameterSet.getNat, h]
  rfl

/-- Witness for C9 on a concrete 2 × 2 heightmap. -/
theorem cellular_zero_iterations_witness :
    psW9 "iterations" = some (.natv 0) ∧
    cellular_automata psW9 (grayImage [[0, 1/2], [1/2, 1]]) (fun _ => ⟨0, 0, 5⟩) =
      grayImage [[0, 1/2], [1/2, 1]] := by
  exact ⟨rfl, cellular_zero_iterations psW9 rfl [[0, 1/2], [1/2, 1]]
    (fun _ => ⟨0, 0, 5⟩)⟩

/-! ### Claim C10 -/

/-- Claim C10: constructing a custom palette with `custom_colors` omitted,
`None`, or falsy (the empty list) stores `[]`, and `generate` then returns
`[]` for every `num_colors` without an error. -/
theorem custom_falsy_generate (cc : Option (List RGB))
    (hcc : cc = none ∨ cc = some []) (rc : ℕ → RGB) (n : ℕ) :
    (ColorPalette.init "custom" cc).custom_colors = [] ∧
    (ColorPalette.init "custom" cc).generate rc n = .ok [] := by
  have hempty : (ColorPalette.init "custom" cc).custom_colors = [] := by
    rcases hcc with rfl | rfl <;> simp [ColorPalette.init]
  refine ⟨hempty, ?_⟩
  unfold ColorPalette.generate
  rw [show (ColorPalette.init "custom" cc).palette_type = "custom" from rfl]
  rw [if_neg (by decide), if_neg (by decide), if_pos rfl, hempty]

/-- Witness for C10 with the `custom_colors` argument `None`. -/
theorem custom_falsy_generate_witness :
    ((none : Option (List RGB)) = none ∨ (none : Option (List RGB)) = some []) ∧
    (ColorPalette.init "custom" none).generate rcW5 5 = .ok [] := by
  have h := custom_falsy_generate none (Or.inl rfl) rcW5 5
  exact ⟨Or.inl rfl, h.2⟩

end Algoart
